import Mathlib

/-!
Verification of the Eco Agent chat application's message-context management
subsystem and RAG endpoint against its specification.

The TypeScript source is shallowly embedded: JSON values become the `Json`
inductive, JavaScript truthiness and property access are modelled explicitly,
stateful code (database rows, wall-clock reads, random ids) is passed explicit
state/oracle parameters, and each route handler or helper function is
translated into a total Lean function keeping the source's name.

Deliberate modelling conventions (noted where they matter):
- JavaScript numbers are modelled as integers (`Int`/`Nat`); floating-point
  values (NaN propagation, fractional JSON literals) are outside the model.
- `JSON.stringify(x, null, 2)` pretty-printing indentation is not modelled;
  the compact rendering `Json.stringify` is used. No proved property depends
  on the whitespace of a serialized string.
-/

namespace EcoAgent

/-- JSON values: the runtime shape of message parts, tool results and
request/response bodies. JavaScript `undefined` is represented by the absence
of a field (an `Option` at access sites), never as a `Json` value. -/
inductive Json where
  | null
  | bool (b : Bool)
  | num (n : Int)
  | str (s : String)
  | arr (elems : List Json)
  | obj (fields : List (String × Json))
  deriving Repr, Inhabited

/-- Character-list prefix test (kernel-reducible). -/
def prefixOfList : List Char → List Char → Bool
  | [], _ => true
  | _ :: _, [] => false
  | a :: as, b :: bs => a = b && prefixOfList as bs

/-- JS `s.startsWith(p)`: a kernel-reducible replacement for
`String.startsWith`, defined over the character lists. -/
def jsStartsWith (s p : String) : Bool := prefixOfList p.toList s.toList

/-- JS `s.trim()`: a kernel-reducible replacement for `String.trim`,
stripping leading and trailing whitespace. -/
def jsTrim (s : String) : String :=
  String.mk (((s.toList.dropWhile Char.isWhitespace).reverse.dropWhile Char.isWhitespace).reverse)

/-- First binding of key `k` in an object's field list (JS property lookup). -/
def lookupField : List (String × Json) → String → Option Json
  | [], _ => none
  | (k', v) :: rest, k => if k' = k then some v else lookupField rest k

/-- JS property access `x[k]`: `none` models `undefined` (missing field or
access on a non-object). Arrays have no named fields in this model. -/
def getField : Json → String → Option Json
  | Json.obj fields, k => lookupField fields k
  | _, _ => none

/-- JS truthiness of a value (`if (x)`). NaN is outside the model. -/
def jsTruthy : Json → Bool
  | Json.null => false
  | Json.bool b => b
  | Json.num n => !(n = 0)
  | Json.str s => !(s = "")
  | Json.arr _ => true
  | Json.obj _ => true

/-- JS truthiness of a possibly-`undefined` value. -/
def truthyOpt (o : Option Json) : Bool :=
  match o with
  | some v => jsTruthy v
  | none => false

/-- JS `a || b` where `a` may be `undefined`. -/
def jsOrJ (a : Option Json) (b : Json) : Json :=
  match a with
  | some v => if jsTruthy v then v else b
  | none => b

/-- Optional chaining `x?.k1?.k2` (two steps). -/
def optChain2 (x : Json) (k1 k2 : String) : Option Json :=
  (getField x k1).bind (fun v => getField v k2)

/-- Optional chaining `x?.k1?.k2?.k3` (three steps). -/
def optChain3 (x : Json) (k1 k2 k3 : String) : Option Json :=
  (optChain2 x k1 k2).bind (fun v => getField v k3)

mutual
/-- JS `String(v)` / template-literal interpolation of a value. -/
def jsDisplay : Json → String
  | Json.null => "null"
  | Json.bool true => "true"
  | Json.bool false => "false"
  | Json.num n => toString n
  | Json.str s => s
  | Json.arr elems => jsDisplayList elems
  | Json.obj _ => "[object Object]"
termination_by structural v => v
/-- JS `Array.prototype.toString`: elements joined by commas, `null` rendered
as the empty string. -/
def jsDisplayList : List Json → String
  | [] => ""
  | [Json.null] => ""
  | [v] => jsDisplay v
  | Json.null :: rest => "," ++ jsDisplayList rest
  | v :: rest => jsDisplay v ++ "," ++ jsDisplayList rest
termination_by structural es => es
end

/-- Template-literal interpolation of a possibly-`undefined` value. -/
def jsDisplayOpt (o : Option Json) : String :=
  match o with
  | some v => jsDisplay v
  | none => "undefined"

/-- Replace key `k` in place when present, else append it — the effect of a JS
object spread `{...fields, k: v}` on the key order (keys are unique in a JS
object). -/
def setField : List (String × Json) → String → Json → List (String × Json)
  | [], k, v => [(k, v)]
  | (k', v') :: rest, k, v =>
      if k' = k then (k, v) :: rest else (k', v') :: setField rest k v

/-- Remove key `k` (the effect of spreading with `k: undefined` and then
serializing, which drops the key at its position). -/
def eraseField : List (String × Json) → String → List (String × Json)
  | [], _ => []
  | (k', v') :: rest, k =>
      if k' = k then eraseField rest k else (k', v') :: eraseField rest k

/-- Apply `setField` on an object value; any other value is left unchanged. -/
def setObjField (x : Json) (k : String) (v : Json) : Json :=
  match x with
  | Json.obj fields => Json.obj (setField fields k v)
  | other => other

/-- JS `x[k] !== undefined && x[k] !== null`. -/
def hasField (x : Json) (k : String) : Bool :=
  match getField x k with
  | some Json.null => false
  | some _ => true
  | none => false

/-- One character of `JSON.stringify`'s string escaping. -/
def escapeChar (c : Char) : String :=
  if c = '"' then "\\\""
  else if c = '\\' then "\\\\"
  else if c = '\n' then "\\n"
  else if c = '\r' then "\\r"
  else if c = '\t' then "\\t"
  else if c.toNat = 8 then "\\b"
  else if c.toNat = 12 then "\\f"
  else if c.toNat < 32 then
    "\\u00" ++ String.singleton (Nat.digitChar (c.toNat / 16)) ++ String.singleton (Nat.digitChar (c.toNat % 16))
  else String.singleton c

/-- Escaping of a string's characters as `JSON.stringify` does. -/
def jsonEscape (s : String) : String := String.join (s.toList.map escapeChar)

mutual
/-- Compact `JSON.stringify` of a value. -/
def Json.stringify : Json → String
  | Json.null => "null"
  | Json.bool true => "true"
  | Json.bool false => "false"
  | Json.num n => toString n
  | Json.str s => "\"" ++ jsonEscape s ++ "\""
  | Json.arr elems => "[" ++ stringifyElems elems ++ "]"
  | Json.obj fields => "\x7b" ++ stringifyFields fields ++ "\x7d"
termination_by structural v => v
/-- Array elements of `JSON.stringify`, comma separated. -/
def stringifyElems : List Json → String
  | [] => ""
  | [v] => Json.stringify v
  | v :: rest => Json.stringify v ++ "," ++ stringifyElems rest
termination_by structural es => es
/-- Object members of `JSON.stringify`, comma separated. -/
def stringifyFields : List (String × Json) → String
  | [] => ""
  | [(k, v)] => "\"" ++ jsonEscape k ++ "\":" ++ Json.stringify v
  | (k, v) :: rest => "\"" ++ jsonEscape k ++ "\":" ++ Json.stringify v ++ "," ++ stringifyFields rest
termination_by structural fs => fs
end

/-! ### Messages and token estimation (chat route, `src/app/api/chat/route.ts`) -/

/-- A `BiomedUIMessage`: id, role and a `parts` value that is an array in the
normal case but is carried as raw `Json` because several code paths guard on
`Array.isArray(message.parts)`. -/
structure Message where
  id : String
  role : String
  parts : Json
  deriving Repr, Inhabited

/-- The message as a JS object, as `JSON.stringify(message)` sees it. -/
def messageToJson (message : Message) : Json :=
  Json.obj [("id", Json.str message.id), ("role", Json.str message.role), ("parts", message.parts)]

/-- Source `estimateTokens`: rough token estimate, `Math.ceil(text.length / 4)`. -/
def estimateTokens (text : String) : Nat := (text.length + 3) / 4

/-- Token estimate of a single part inside `estimateMessageTokens`'s loop.
A string part is estimated directly; an object part of type `text` with a
truthy string `text` field is estimated from that text; every other object or
array part is estimated from its JSON serialization; `null`, booleans and
numbers contribute nothing (no branch of the source applies to them).
(A truthy non-string `text` field would make the JS compute NaN; that
floating-point corner is outside the model and falls to the JSON branch.) -/
def estimatePartTokens (part : Json) : Nat :=
  match part with
  | Json.str s => estimateTokens s
  | Json.obj _ =>
      (match getField part "type", getField part "text" with
       | some (Json.str "text"), some (Json.str t) =>
           if !(t = "") then estimateTokens t else estimateTokens (Json.stringify part)
       | _, _ => estimateTokens (Json.stringify part))
  | Json.arr _ => estimateTokens (Json.stringify part)
  | _ => 0

/-- Source `estimateMessageTokens`: 4 tokens of role overhead plus the parts' own
estimates; when that total is at most 10, the whole message's JSON
serialization is used as a fallback estimate. -/
def estimateMessageTokens (message : Message) : Nat :=
  let tokens : Nat :=
    match message.parts with
    | Json.arr parts => 4 + (parts.map estimatePartTokens).sum
    | _ => 4
  if tokens ≤ 10 then estimateTokens (Json.stringify (messageToJson message)) else tokens

/-- Total estimated token count of a message list. -/
def sumTokens (messages : List Message) : Nat :=
  (messages.map estimateMessageTokens).sum

/-- The backwards greedy loop of `trimMessages`, written over the reversed
message list: starting from the most recent message, keep accumulating
messages while the running total stays within the budget, and stop at the
first message that would exceed it. -/
def takeWhileBudget (maxTokens : Nat) : List Message → Nat → List Message
  | [], _ => []
  | message :: rest, currentTokens =>
    let tokens := estimateMessageTokens message
    if maxTokens < currentTokens + tokens then []
    else message :: takeWhileBudget maxTokens rest (currentTokens + tokens)

/-- The fallback scan of `trimMessages`: the last message with role `user`. -/
def findLastUser (messages : List Message) : Option Message :=
  messages.reverse.find? (fun m => m.role = "user")

/-- Source `trimMessages`: token-aware trimming. Keeps the longest suffix of recent
messages fitting the budget; when even the most recent message alone exceeds
the budget it falls back to the last user message (or, failing that, the very
last message), keeping it although it exceeds the budget. -/
def trimMessages (messages : List Message) (maxTokens : Nat) : List Message :=
  if messages.isEmpty then messages
  else
    let trimmed := (takeWhileBudget maxTokens messages.reverse 0).reverse
    if trimmed.isEmpty then
      match findLastUser messages with
      | some m => [m]
      | none =>
        match messages.getLast? with
        | some m => [m]
        | none => []
    else trimmed

/-- What `trimMessages` does on a non-empty list, phrased from the original
(unreversed) list: if the most recent message fits the budget, the result is
the longest suffix whose total estimate fits; otherwise the fallback returns
the last user message, or failing that the last message. -/
def TrimSpec (messages : List Message) (b : Nat) (mLast : Message) : Prop :=
  (estimateMessageTokens mLast ≤ b →
    ∃ k, trimMessages messages b = messages.drop k ∧
      sumTokens (messages.drop k) ≤ b ∧
      ∀ j < k, b < sumTokens (messages.drop j)) ∧
  (b < estimateMessageTokens mLast →
    trimMessages messages b = [(findLastUser messages).getD mLast])

/-- A small concrete user text message, used in witnesses. -/
def msgHello : Message :=
  ⟨"m1", "user",
    Json.arr [Json.obj [("type", Json.str "text"),
      ("text", Json.str "Hello Olympia, what is the climate plan?")]]⟩

/-- A small concrete assistant text message, used in witnesses. -/
def msgReply : Message :=
  ⟨"m2", "assistant",
    Json.arr [Json.obj [("type", Json.str "text"),
      ("text", Json.str "The Sea Level Rise Response Plan covers it in detail.")]]⟩

/-! ### stripResponseMetadata (chat route) -/

/-- The keys the `JSON.stringify` replacer of `stripResponseMetadata` always
drops: fields that might contain provider response ids. -/
def bannedKey (k : String) : Bool :=
  k = "response" || k = "responseId" || k = "rs_id" ||
  k = "response_id" || k = "requestId" || k = "request_id"

/-- A string value starting with `rs_` (the replacer's value-based filter). -/
def isRsString : Json → Bool
  | Json.str s => jsStartsWith s "rs_"
  | _ => false

mutual
/-- The semantic effect of `JSON.parse(JSON.stringify(part, replacer))` with
`stripResponseMetadata`'s replacer, on an object or array part. -/
def stripJson : Json → Json
  | Json.obj fields => Json.obj (stripFields fields)
  | Json.arr elems => Json.arr (stripElems elems)
  | v => v
termination_by structural v => v
/-- Object members under the replacer: a member whose key is banned or whose
value is an `rs_` string is omitted; other members keep their key and are
cleaned recursively. -/
def stripFields : List (String × Json) → List (String × Json)
  | [] => []
  | (k, v) :: rest =>
      if bannedKey k || isRsString v then stripFields rest
      else (k, stripJson v) :: stripFields rest
termination_by structural fs => fs
/-- Array elements under the replacer: for an element the replacer's
`undefined` becomes `null` in the serialized array (array keys are numeric
strings, so only the `rs_` value check applies); other elements are cleaned
recursively. -/
def stripElems : List Json → List Json
  | [] => []
  | v :: rest =>
      (if isRsString v then Json.null else stripJson v) :: stripElems rest
termination_by structural es => es
end

/-- One element of `stripResponseMetadata`'s map: non-objects are returned
as-is (`!part || typeof part !== 'object'`); objects and arrays go through the
serialize-with-replacer round trip. -/
def stripMetaPart (part : Json) : Json :=
  match part with
  | Json.obj _ => stripJson part
  | Json.arr _ => stripJson part
  | other => other

/-- Source `stripResponseMetadata(parts)`: non-arrays are returned unchanged, arrays
are mapped element-wise. -/
def stripResponseMetadataJ (parts : Json) : Json :=
  match parts with
  | Json.arr elems => Json.arr (elems.map stripMetaPart)
  | other => other

mutual
/-- The claim's cleanliness condition on a value: no object at any nesting
depth has a banned field name or a field whose string value starts with
`rs_`. (Array elements are not constrained.) -/
def cleanJson : Json → Bool
  | Json.obj fields => cleanFields fields
  | Json.arr elems => cleanElems elems
  | _ => true
termination_by structural v => v
/-- The `cleanJson` condition over an object's members. -/
def cleanFields : List (String × Json) → Bool
  | [] => true
  | (k, v) :: rest => !bannedKey k && !isRsString v && cleanJson v && cleanFields rest
termination_by structural fs => fs
/-- The `cleanJson` condition over an array's elements. -/
def cleanElems : List Json → Bool
  | [] => true
  | v :: rest => cleanJson v && cleanElems rest
termination_by structural es => es
end

mutual
/-- Full cleanliness: `cleanJson` and additionally no array element at any
nesting depth is an `rs_` string (the condition under which the replacer
round trip is the identity). -/
def fullyClean : Json → Bool
  | Json.obj fields => fullyCleanFields fields
  | Json.arr elems => fullyCleanElems elems
  | _ => true
termination_by structural v => v
/-- The `fullyClean` condition over an object's members. -/
def fullyCleanFields : List (String × Json) → Bool
  | [] => true
  | (k, v) :: rest => !bannedKey k && !isRsString v && fullyClean v && fullyCleanFields rest
termination_by structural fs => fs
/-- The `fullyClean` condition over an array's elements. -/
def fullyCleanElems : List Json → Bool
  | [] => true
  | v :: rest => !isRsString v && fullyClean v && fullyCleanElems rest
termination_by structural es => es
end

/-! ### A JSON parser (JS `JSON.parse`), used by the summarizer -/

/-- Value of a hexadecimal digit. -/
def hexVal (c : Char) : Option Nat :=
  if c.isDigit then some (c.toNat - 48)
  else if 'a' ≤ c && c ≤ 'f' then some (c.toNat - 87)
  else if 'A' ≤ c && c ≤ 'F' then some (c.toNat - 55)
  else none

/-- Skip JSON whitespace. -/
def skipWs : List Char → List Char
  | c :: rest => if c = ' ' || c = '\t' || c = '\n' || c = '\r' then skipWs rest else c :: rest
  | [] => []

/-- Parse the contents of a JSON string after the opening quote, returning
the string and the remaining input after the closing quote. -/
def parseStringChars : List Char → Option (String × List Char)
  | [] => none
  | '"' :: rest => some ("", rest)
  | '\\' :: 'u' :: h1 :: h2 :: h3 :: h4 :: rest => do
      let n1 ← hexVal h1
      let n2 ← hexVal h2
      let n3 ← hexVal h3
      let n4 ← hexVal h4
      let (s, r) ← parseStringChars rest
      pure (String.singleton (Char.ofNat (((n1 * 16 + n2) * 16 + n3) * 16 + n4)) ++ s, r)
  | '\\' :: c :: rest => do
      let e ←
        if c = '"' then some '"'
        else if c = '\\' then some '\\'
        else if c = '/' then some '/'
        else if c = 'b' then some (Char.ofNat 8)
        else if c = 'f' then some (Char.ofNat 12)
        else if c = 'n' then some '\n'
        else if c = 'r' then some '\r'
        else if c = 't' then some '\t'
        else none
      let (s, r) ← parseStringChars rest
      pure (String.singleton e ++ s, r)
  | c :: rest =>
      if c.toNat < 32 then none
      else do
        let (s, r) ← parseStringChars rest
        pure (String.singleton c ++ s, r)

/-- Split a leading run of decimal digits from the input. -/
def parseDigits : List Char → List Char × List Char
  | [] => ([], [])
  | c :: rest =>
      if c.isDigit then
        let (ds, r) := parseDigits rest
        (c :: ds, r)
      else ([], c :: rest)

/-- Decimal digits to a natural number. -/
def digitsToNat (ds : List Char) : Nat :=
  ds.foldl (fun acc c => acc * 10 + (c.toNat - 48)) 0

/-- Parse a JSON number. Only the integer form is representable in this
model: a fractional or exponent part makes the parse fail where JS would
produce a float (see the header note on numbers). -/
def parseIntNumber (input : List Char) : Option (Json × List Char) :=
  let (neg, rest) :=
    match input with
    | '-' :: r => (true, r)
    | r => (false, r)
  match parseDigits rest with
  | ([], _) => none
  | (ds, r) =>
      if 1 < ds.length ∧ ds.head? = some '0' then none
      else
        match r with
        | '.' :: _ => none
        | 'e' :: _ => none
        | 'E' :: _ => none
        | _ =>
          let n : Int := Int.ofNat (digitsToNat ds)
          some (Json.num (if neg then -n else n), r)

mutual
/-- Parse one JSON value by recursive descent. The fuel only bounds bracket
nesting depth, which is at most the input length, so `jsonParse`'s fuel never
runs out on an input the grammar accepts. -/
def parseValue : Nat → List Char → Option (Json × List Char)
  | 0, _ => none
  | fuel + 1, input =>
    match skipWs input with
    | 'n' :: 'u' :: 'l' :: 'l' :: rest => some (Json.null, rest)
    | 't' :: 'r' :: 'u' :: 'e' :: rest => some (Json.bool true, rest)
    | 'f' :: 'a' :: 'l' :: 's' :: 'e' :: rest => some (Json.bool false, rest)
    | '"' :: rest => (parseStringChars rest).map (fun p => (Json.str p.1, p.2))
    | '[' :: rest =>
        (match skipWs rest with
         | ']' :: r => some (Json.arr [], r)
         | other => (parseItems fuel other).map (fun p => (Json.arr p.1, p.2)))
    | '{' :: rest =>
        (match skipWs rest with
         | '}' :: r => some (Json.obj [], r)
         | other => (parseMembers fuel other).map (fun p => (Json.obj p.1, p.2)))
    | other => parseIntNumber other
termination_by structural fuel _ => fuel
/-- Parse one or more array items, each followed by `,` or `]`. -/
def parseItems : Nat → List Char → Option (List Json × List Char)
  | 0, _ => none
  | fuel + 1, input => do
    let (v, r) ← parseValue fuel input
    match skipWs r with
    | ',' :: r2 => do
        let (vs, r3) ← parseItems fuel r2
        pure (v :: vs, r3)
    | ']' :: r2 => pure ([v], r2)
    | _ => none
termination_by structural fuel _ => fuel
/-- Parse one or more object members, each a quoted key, `:`, a value, then
`,` or the closing brace. -/
def parseMembers : Nat → List Char → Option (List (String × Json) × List Char)
  | 0, _ => none
  | fuel + 1, input =>
    match skipWs input with
    | '"' :: rest => do
        let (k, r1) ← parseStringChars rest
        match skipWs r1 with
        | ':' :: r2 => do
            let (v, r3) ← parseValue fuel r2
            match skipWs r3 with
            | ',' :: r4 => do
                let (ms, r5) ← parseMembers fuel r4
                pure ((k, v) :: ms, r5)
            | '}' :: r4 => pure ([(k, v)], r4)
            | _ => none
        | _ => none
    | _ => none
termination_by structural fuel _ => fuel
end

/-- JS `JSON.parse`: `none` models a thrown `SyntaxError`. -/
def jsonParse (s : String) : Option Json :=
  match parseValue (s.length + 1) s.toList with
  | some (v, rest) => if (skipWs rest).isEmpty then some v else none
  | none => none

/-- A part with no banned field and no `rs_`-valued field, but with an `rs_`
string inside an array: the replacer nulls the array element. -/
def partRs : Json := Json.obj [("data", Json.arr [Json.str "rs_9"])]

/-- A part containing a banned `response` field next to an ordinary field. -/
def partResp : Json := Json.obj [("response", Json.str "x"), ("note", Json.str "keep")]

/-- A part that is fully clean: the replacer round trip leaves it unchanged. -/
def partKeep : Json := Json.obj [("note", Json.str "keep"), ("n", Json.num 3)]

/-! ### countToolCalls and summarizeOlderMessages (chat route) -/

/-- A part counted by `countToolCalls`: an object whose `type` field is a
string starting with `tool-`. -/
def isToolPart (part : Json) : Bool :=
  match getField part "type" with
  | some (Json.str t) => jsStartsWith t "tool-"
  | _ => false

/-- Source `countToolCalls`: the number of tool parts across the conversation. -/
def countToolCalls (messages : List Message) : Nat :=
  (messages.map (fun msg =>
    match msg.parts with
    | Json.arr parts => (parts.filter isToolPart).length
    | _ => 0)).sum

/-- The text shown for a `text` part in the summary: strings longer than 500
characters are truncated with an ellipsis; a truthy non-string value is
interpolated as-is. -/
def digestText : Json → String
  | Json.str t => if 500 < t.length then t.take 500 ++ "..." else t
  | v => jsDisplay v

/-- The digest line for a `tool-olympiaRAGSearch` result: pushed only when
`result?.context_id` is truthy. -/
def ragLine (r : Json) : List String :=
  if truthyOpt (getField r "context_id") then
    ["[RAG Search: " ++ jsDisplay (jsOrJ (getField r "query") (Json.str "unknown")) ++
      " → context_id: " ++ jsDisplayOpt (getField r "context_id") ++ "]"]
  else []

/-- The digest entries for a tool part whose string type `t` starts with
`tool-`. For the catch-all branch, `replace('tool-', '')` removes the first
occurrence, which for such `t` is the 5-character prefix. -/
def toolDigest (p : Json) (t : String) : List String :=
  if t = "tool-olympiaRAGSearch" then
    match getField p "result" with
    | some (Json.str s) =>
        (match jsonParse s with
         | none => ["[RAG Search completed]"]
         | some r => ragLine r)
    | some v => ragLine v
    | none => ragLine Json.null
  else if t = "tool-createChart" then
    ["[Created chart: " ++
      jsDisplay (jsOrJ (optChain3 p "toolCall" "args" "title")
        (jsOrJ (optChain2 p "args" "title") (Json.str "chart"))) ++ "]"]
  else if t = "tool-createCSV" then
    ["[Created CSV: " ++
      jsDisplay (jsOrJ (optChain3 p "toolCall" "args" "title")
        (jsOrJ (optChain2 p "args" "title") (Json.str "csv"))) ++ "]"]
  else if t = "tool-generateImage" then
    ["[Generated image]"]
  else if t = "tool-webSearch" then
    ["[Web search: \"" ++
      jsDisplay (jsOrJ (optChain3 p "toolCall" "args" "query")
        (jsOrJ (optChain2 p "args" "query") (Json.str ""))) ++ "\"]"]
  else
    ["[" ++ t.drop 5 ++ " completed]"]

/-- The summary entries contributed by one part: the source's if/else chain
over `p.type`. Parts that are not objects contribute nothing (the loop
`continue`s on them, and none of the `p.type` tests can hold). -/
def partDigest (role : String) (p : Json) : List String :=
  match getField p "type" with
  | some (Json.str t) =>
      if t = "text" && truthyOpt (getField p "text") then
        ["[" ++ role ++ "]: " ++ digestText ((getField p "text").getD Json.null)]
      else if jsStartsWith t "tool-" then toolDigest p t
      else []
  | _ => []

/-- The summary entries contributed by one message (skipped when its `parts`
is not an array). -/
def messageDigest (msg : Message) : List String :=
  match msg.parts with
  | Json.arr parts => parts.flatMap (partDigest msg.role)
  | _ => []

/-- The synthetic summary text: a header with the number of older messages,
at most 20 digest entries, and a trailer. -/
def buildSummaryText (olderMessages : List Message) : String :=
  let summaryParts := olderMessages.flatMap messageDigest
  "**Conversation History Summary (" ++ toString olderMessages.length ++
    " earlier messages):**\n\n" ++
    String.intercalate "\n" (summaryParts.take 20) ++
    "\n\n---\n\n*Recent conversation continues below:*"

/-- Source `summarizeOlderMessages`: unchanged unless the conversation has at least
5 tool calls AND more than 3 messages; otherwise the messages before the last
3 are collapsed into one synthetic user message. `now` models `Date.now()`,
used only for the synthetic id. -/
def summarizeOlderMessages (now : Nat) (messages : List Message) : List Message :=
  let toolCallCount := countToolCalls messages
  if toolCallCount < 5 ∨ messages.length ≤ 3 then messages
  else
    let recentMessages := messages.drop (messages.length - 3)
    let olderMessages := messages.take (messages.length - 3)
    if olderMessages.length = 0 then messages
    else
      let summaryText := buildSummaryText olderMessages
      ⟨"summary-" ++ toString now, "user",
        Json.arr [Json.obj [("type", Json.str "text"), ("text", Json.str summaryText)]]⟩ ::
      recentMessages

/-- An assistant message carrying five completed tool-call parts. -/
def mFiveTools : Message :=
  ⟨"mc4", "assistant",
    Json.arr ((List.range 5).map (fun i =>
      Json.obj [("type", Json.str "tool-webSearch"), ("output", Json.str (toString i))]))⟩

/-- A four-message history whose first message holds five tool calls. -/
def wMsgs : List Message := [mFiveTools, msgHello, msgReply, msgHello]

/-! ### Chat-handler message reload (chat route POST) -/

/-- A chat message row as read back from the database; `content` carries the
`JSON.parse` of the stored content string. -/
structure DbMessage where
  id : String
  role : String
  content : Json
  deriving Repr, Inhabited

/-- Filter applied to parts reloaded from the database: keep non-objects
(`!part || typeof part !== 'object'` returns them), keep `text` parts, keep
`tool-` parts only when they carry a non-null `output` or `result`, and drop
everything else (arrays included: their `type` access yields `undefined`). -/
def keepLoadedPart (part : Json) : Bool :=
  match part with
  | Json.obj _ =>
      (match getField part "type" with
       | some (Json.str t) =>
           if t = "text" then true
           else if jsStartsWith t "tool-" then
             hasField part "output" || hasField part "result"
           else false
       | _ => false)
  | Json.arr _ => false
  | _ => true

/-- Convert one database row to a `BiomedUIMessage`: filter incomplete tool
parts (when the parsed content is an array), then strip response metadata. -/
def loadMessage (msg : DbMessage) : Message :=
  let rawParts := msg.content
  let filteredParts :=
    match rawParts with
    | Json.arr parts => Json.arr (parts.filter keepLoadedPart)
    | other => other
  ⟨msg.id, msg.role, stripResponseMetadataJ filteredParts⟩

/-- The `_saved` note written when base64 image data is stripped from a
frontend `tool-generateImage` part. -/
def savedNote (idDisp : String) : String :=
  "✓ Image saved to database (ID: " ++ idDisp ++
    "). Display using: ![image](image:" ++ idDisp ++ ")"

/-- Strip base64 image data from a `tool-generateImage` part whose object
`result` carries a truthy `imageData`: the `imageData` key is dropped and a
`_saved` note appended; every other field of the part and of its result is
kept. `note` builds the note text from the displayed image id
(`result.imageId || 'unknown'`). Any other part is returned unchanged. -/
def stripImageData (note : String → String) (part : Json) : Json :=
  match getField part "type" with
  | some (Json.str t) =>
      if t = "tool-generateImage" then
        match getField part "result" with
        | some (Json.obj rfields) =>
            if truthyOpt (lookupField rfields "imageData") then
              setObjField part "result"
                (Json.obj (setField (eraseField rfields "imageData") "_saved"
                  (Json.str (note (jsDisplay
                    (jsOrJ (lookupField rfields "imageId") (Json.str "unknown")))))))
            else part
        | _ => part
      else part
  | _ => part

/-- Filter for the new frontend message's parts in the reload branch: keep
non-objects, `text` parts and any `tool-` part; drop the rest. -/
def keepNewPart (part : Json) : Bool :=
  match part with
  | Json.obj _ =>
      (match getField part "type" with
       | some (Json.str t) => t = "text" || jsStartsWith t "tool-"
       | _ => false)
  | Json.arr _ => false
  | _ => true

/-- Process the new frontend message in the reload branch: parts not held in
an array are replaced by `[]`, then filtered and image-data stripped. -/
def processNewMessage (m : Message) : Message :=
  let processedParts :=
    match m.parts with
    | Json.arr parts => parts
    | _ => []
  ⟨m.id, m.role, Json.arr ((processedParts.filter keepNewPart).map (stripImageData savedNote))⟩

/-- Filter for frontend parts when the request starts a conversation: keep
non-objects, `text` and `tool-` parts; `image` parts and all other object or
array parts are dropped. -/
def keepFirstPart (part : Json) : Bool :=
  match part with
  | Json.obj _ =>
      (match getField part "type" with
       | some (Json.str t) =>
           if t = "text" || jsStartsWith t "tool-" then true
           else if t = "image" then false
           else false
       | _ => false)
  | Json.arr _ => false
  | _ => true

/-- The first-message branch: every frontend message's parts are filtered and
image-data stripped (messages whose `parts` is not an array pass through). -/
def firstBranch (frontendMessages : List Message) : List Message :=
  frontendMessages.map (fun msg =>
    ⟨msg.id, msg.role,
      match msg.parts with
      | Json.arr parts =>
          Json.arr ((parts.filter keepFirstPart).map (stripImageData savedNote))
      | other => other⟩)

/-- The message history the chat handler builds for the model: with a truthy
session id and more than one frontend message, the database history (filtered
and stripped) plus the processed last frontend message; otherwise the
filtered frontend messages. -/
def buildMessages (sessionId : Option String) (frontendMessages : List Message)
    (dbMessages : List DbMessage) : List Message :=
  let sessTruthy : Bool :=
    match sessionId with
    | some s => !(s = "")
    | none => false
  if sessTruthy ∧ 1 < frontendMessages.length then
    (dbMessages.map loadMessage) ++
      [processNewMessage (frontendMessages.getLastD ⟨"", "", Json.null⟩)]
  else firstBranch frontendMessages

/-- A concrete database row whose content carries a response id to strip. -/
def dbRow1 : DbMessage :=
  ⟨"d1", "assistant",
    Json.arr [Json.obj [("type", Json.str "text"), ("text", Json.str "hi"),
      ("responseId", Json.str "rs_1")]]⟩

/-! ### onFinish persistence (chat route) and the generateImage return -/

/-- A message as delivered to the `onFinish` callback: `parts` and `content`
may each be absent (the legacy fallback reads `content`). -/
structure UIMessage where
  id : String
  role : String
  parts : Option Json
  content : Option Json
  deriving Repr, Inhabited

/-- A chat message row as passed to `saveChatMessages`. -/
structure SavedMessage where
  id : String
  role : String
  content : Json
  processingTimeMs : Option Nat
  deriving Repr, Inhabited

/-- The onFinish persistence filter: user messages keep every part; for other
roles, `text` parts are kept, `tool-` parts only with a non-null `output` or
`result`, and `image`, unknown-type and non-object parts are dropped. -/
def keepFinishPart (role : String) (part : Json) : Bool :=
  if role = "user" then true
  else
    match part with
    | Json.obj _ =>
        (match getField part "type" with
         | some (Json.str t) =>
             if t = "text" then true
             else if jsStartsWith t "tool-" then
               hasField part "output" || hasField part "result"
             else false
         | _ => false)
    | _ => false

/-- The `_saved` note written by the onFinish filter when stripping image
data (worded slightly differently from the pre-stream one). -/
def finishNote (idDisp : String) : String :=
  "✓ Image successfully saved to database (ID: " ++ idDisp ++
    "). Display it using: ![image](image:" ++ idDisp ++ ")"

/-- The map the onFinish filter applies to each kept part before saving. -/
def mapFinishPart : Json → Json := stripImageData finishNote

/-- The legacy fallback for messages without a parts array: string content
becomes one text part, array content is saved as-is, anything else `[]`. -/
def contentFallback (msg : UIMessage) : Json :=
  match msg.content with
  | some c =>
      if jsTruthy c then
        match c with
        | Json.str s => Json.arr [Json.obj [("type", Json.str "text"), ("text", Json.str s)]]
        | Json.arr elems => Json.arr elems
        | _ => Json.arr []
      else Json.arr []
  | none => Json.arr []

/-- The content the onFinish callback saves for one message: its filtered and
mapped parts array when present, else the legacy `content` fallback. -/
def contentToSave (msg : UIMessage) : Json :=
  match msg.parts with
  | some (Json.arr parts) =>
      Json.arr ((parts.filter (keepFinishPart msg.role)).map mapFinishPart)
  | _ => contentFallback msg

/-- Hex digit, case-insensitive. -/
def isHexChar (c : Char) : Bool :=
  c.isDigit || ('a' ≤ c && c ≤ 'f') || ('A' ≤ c && c ≤ 'F')

/-- The UUID shape test of the save path
(`/^[0-9a-f]\x7b8\x7d-…/i` on the message id). -/
def isUuid (s : String) : Bool :=
  let cs := s.toList
  cs.length = 36 &&
  (List.range 36).all (fun i =>
    if i = 8 || i = 13 || i = 18 || i = 23 then cs.getD i ' ' = '-'
    else isHexChar (cs.getD i ' '))

/-- One saved row of the onFinish bulk save. `freshId` models the
`randomUUID()` drawn when the message id is not a UUID shape; the processing
time is attached only to a final assistant message. -/
def messageToSave (freshId : String) (processingTimeMs : Nat) (index total : Nat)
    (msg : UIMessage) : SavedMessage :=
  ⟨if isUuid msg.id then msg.id else freshId,
   msg.role,
   contentToSave msg,
   if msg.role = "assistant" ∧ index + 1 = total then some processingTimeMs else none⟩

/-- The full list the onFinish callback passes to `saveChatMessages`, with
`freshIds i` the UUID drawn for position `i`. -/
def onFinishMessagesToSave (freshIds : Nat → String) (processingTimeMs : Nat)
    (msgs : List UIMessage) : List SavedMessage :=
  msgs.enum.map (fun p => messageToSave (freshIds p.1) processingTimeMs p.1 msgs.length p.2)

/-- The content of the user-message row saved immediately before streaming
starts: the last message's parts (`lastMessage.parts || []`). -/
def preStreamUserContent (lastMessage : Message) : Json :=
  if jsTruthy lastMessage.parts then lastMessage.parts else Json.arr []

/-- A tool part lacking both a non-null `output` and a non-null `result`. -/
def incompleteToolPart (part : Json) : Bool :=
  isToolPart part && !hasField part "output" && !hasField part "result"

/-- No element of a saved message's content array is an incomplete tool
part. -/
def savedMessageClean (m : SavedMessage) : Bool :=
  match m.content with
  | Json.arr parts => parts.all (fun p => !incompleteToolPart p)
  | _ => true

/-- JS `a || d` for an optional string argument. -/
def jsOrStr (a : Option String) (d : String) : String :=
  match a with
  | some s => if s = "" then d else s
  | none => d

/-- The `generateImage` success return (src/lib/tools.ts): the object returned
to the model after the image is generated and stored. It carries the pointer
(`imageId`, `imageUrl`) and provenance fields; keys whose value would be
`undefined` (`imageId`/`imageUrl` when the database insert failed) are
omitted as their JSON serialization is. The base64 data `imageBase64`, in
scope at the return site, is deliberately not referenced by the source. -/
def generateImageSuccess (prompt revisedPrompt : String)
    (size quality background title : Option String)
    (imageId : Option String) (executionTime : Nat) (_imageBase64 : String) : Json :=
  Json.obj
    ([("success", Json.bool true)] ++
     (match imageId with
      | some i => [("imageId", Json.str i), ("imageUrl", Json.str ("/api/images/" ++ i))]
      | none => []) ++
     [("prompt", Json.str prompt),
      ("revisedPrompt", Json.str revisedPrompt),
      ("size", Json.str (jsOrStr size "1024x1024")),
      ("quality", Json.str (jsOrStr quality "medium")),
      ("background", Json.str (jsOrStr background "opaque")),
      ("title", Json.str (jsOrStr title "Generated Image")),
      ("executionTime", Json.num (Int.ofNat executionTime)),
      ("_instructions", Json.str
        (match imageId with
         | some i =>
             "IMPORTANT: Display this image in your response using this EXACT markdown syntax:\n\n![image](image:" ++
               i ++
               ")\n\nDo not use any other format. The image is saved in the database and will be loaded automatically."
         | none => "Image generated successfully but could not be saved to database."))])

/-- A tool part carrying no output and no result. -/
def toolNoResult : Json := Json.obj [("type", Json.str "tool-webSearch")]

/-- A user message carrying only an incomplete tool part. -/
def uMsgIncomplete : UIMessage :=
  ⟨"00000000-0000-0000-0000-000000000000", "user", some (Json.arr [toolNoResult]), none⟩

/-- An assistant message mixing a text part, an incomplete tool part and a
completed tool part. -/
def aMsgMixed : UIMessage :=
  ⟨"a1", "assistant",
    some (Json.arr
      [Json.obj [("type", Json.str "text"), ("text", Json.str "ok")],
       toolNoResult,
       Json.obj [("type", Json.str "tool-webSearch"), ("output", Json.str "r")]]),
    none⟩

/-- The result fields of a concrete `tool-generateImage` part that still
carries base64 image data. -/
def genImageResultFields : List (String × Json) :=
  [("success", Json.bool true),
   ("imageId", Json.str "img42"),
   ("imageData", Json.str "aGVsbG8="),
   ("prompt", Json.str "a tree")]

/-- A concrete `tool-generateImage` part built over `genImageResultFields`. -/
def genImagePartFields : List (String × Json) :=
  [("type", Json.str "tool-generateImage"),
   ("toolCallId", Json.str "call1"),
   ("result", Json.obj genImageResultFields)]

/-- The result fields after the onFinish strip: `imageData` dropped at its
position, the `_saved` note appended. -/
def strippedResult (rfields : List (String × Json)) : List (String × Json) :=
  setField (eraseField rfields "imageData") "_saved"
    (Json.str (finishNote (jsDisplay (jsOrJ (lookupField rfields "imageId") (Json.str "unknown")))))

/-- The conclusion of C9 at a part `Json.obj pfields` whose object `result`
is `rfields` with truthy image data: the persisted part replaces only the
`result` field; the new result is `strippedResult rfields`, which drops
`imageData`, appends the `_saved` note, and keeps every other field. -/
def ImageStripSpec (pfields rfields : List (String × Json)) : Prop :=
  (mapFinishPart (Json.obj pfields) =
    Json.obj (setField pfields "result" (Json.obj (strippedResult rfields)))) ∧
  (∀ k, k ≠ "result" →
    lookupField (setField pfields "result" (Json.obj (strippedResult rfields))) k =
      lookupField pfields k) ∧
  lookupField (strippedResult rfields) "imageData" = none ∧
  lookupField (strippedResult rfields) "_saved" =
    some (Json.str (finishNote
      (jsDisplay (jsOrJ (lookupField rfields "imageId") (Json.str "unknown"))))) ∧
  (∀ k, k ≠ "imageData" → k ≠ "_saved" →
    lookupField (strippedResult rfields) k = lookupField rfields k)

/-! ### The RAG query endpoint (`/api/eco-rag`) and its database state -/

/-- One match returned by the S3 Vectors index. Distances (floats in the
source) are carried as integers, per the header note on numbers. -/
structure VectorResult where
  key : String
  distance : Int
  metadata : Json
  deriving Repr, Inhabited

/-- The external-world oracle for one endpoint invocation: what the hosted
APIs and clocks would return, and whether the context insert succeeds. -/
structure RagEnv where
  hasOpenAIKey : Bool
  vectorResults : List VectorResult
  summary : String
  summaryTokens : Nat
  answer : String
  storeOk : Bool
  nowStart : Nat
  nowEnd : Nat
  ctxNow : Nat
  ctxRandom : String
  deriving Repr, Inhabited

/-- The observable external calls an endpoint invocation performs. -/
inductive RagEffect where
  | embedCall (query : String)
  | vectorQuery (topK : Nat)
  | compressCall (query : String)
  | answerCall (query : String)
  | storeContext (id sessionId : String)
  deriving Repr, DecidableEq

/-- The parsed request body of the RAG endpoint; absent fields are `none`. -/
structure RagRequest where
  query : Option String
  topK : Option Nat
  sessionId : Option String
  deriving Repr, Inhabited

/-- An HTTP JSON response. -/
structure HttpResponse where
  status : Nat
  body : Json
  deriving Repr, Inhabited

/-- A stored RagContext row (mirrors the rag_contexts migration). -/
structure RagRow where
  id : String
  sessionId : String
  query : String
  fullContext : Json
  compressedSummary : String
  sources : Json
  tokenCount : Nat
  deriving Repr, Inhabited

/-- The database state the claims observe: the RagContext rows. -/
structure Db where
  ragContexts : List RagRow
  deriving Repr, Inhabited

/-- Modelled from the spec: `db.createRagContext` (the db module itself is
not among the provided sources) inserts one RagContext row, "created once
per vector search call"; `ok` is the oracle for whether the insert succeeds,
and on failure the state is unchanged (the caller logs and continues). -/
def createRagContext (ok : Bool) (db : Db) (row : RagRow) : Db :=
  if ok then ⟨db.ragContexts ++ [row]⟩ else db

/-- Modelled from the spec: `db.countRagContextsForSession` counts the
RagContext rows of one session ("capped at a small fixed count per session",
enforced by a count-then-insert check). -/
def countRagContextsForSession (db : Db) (sessionId : String) : Nat :=
  (db.ragContexts.filter (fun r => r.sessionId = sessionId)).length

/-- Modelled from the spec: `db.listRagContextsForSession` returns the
session's stored contexts (read back by the companion tool). -/
def listRagContextsForSession (db : Db) (sessionId : String) : List RagRow :=
  db.ragContexts.filter (fun r => r.sessionId = sessionId)

/-- The endpoint's 400 validation error body. -/
def ecoRagErrorBody : Json := Json.obj [("error", Json.str "Query parameter is required")]

/-- The context id `ctx_` + `Date.now()` + `_` + the random suffix. -/
def contextIdOf (env : RagEnv) : String :=
  "ctx_" ++ toString env.ctxNow ++ "_" ++ env.ctxRandom

/-- The fixed summary returned when the vector index has no matches. -/
def noResultsSummary : String :=
  "I couldn\x27t find any relevant information in the Olympia city planning documents for your query. Please try rephrasing your question or asking about a different topic."

/-- Rendering `distance.toFixed(4)` for the integer-modelled distance. -/
def toFixed4 (n : Int) : String := toString n ++ ".0000"

/-- Source `buildContext`: the raw context string assembled from the matches. -/
def buildContext (results : List VectorResult) : String :=
  String.join (results.enum.map (fun p =>
    "\n\n--- Source " ++ toString (p.1 + 1) ++ " ---\n" ++
    "Document: " ++ jsDisplay (jsOrJ (getField p.2.metadata "title") (Json.str "Unknown")) ++
    "\n" ++
    "Page: " ++ jsDisplay (jsOrJ (getField p.2.metadata "page") (Json.str "Unknown")) ++
    "\n" ++
    "Distance: " ++ toFixed4 p.2.distance ++ "\n" ++
    "Content:\n" ++
    jsDisplay (jsOrJ (getField p.2.metadata "snippet") (Json.str "No content available")) ++
    "\n"))

/-- One formatted source of the endpoint's response (step 4 of the handler).
A missing `s3_pdf_key` is omitted, as its JSON serialization is. -/
def mkSource (i : Nat) (r : VectorResult) : Json :=
  Json.obj
    ([("doc_id", jsOrJ (getField r.metadata "doc_id") (Json.str "unknown")),
      ("title", jsOrJ (getField r.metadata "title") (Json.str "Unknown Document")),
      ("page", jsOrJ (getField r.metadata "page") (Json.num 0))] ++
     (match getField r.metadata "s3_pdf_key" with
      | some v => [("s3_pdf_key", v)]
      | none => []) ++
     [("distance", Json.num r.distance),
      ("url", Json.str
        (if truthyOpt (getField r.metadata "s3_pdf_key") then
          "https://olympia-plans-raw.s3.us-west-2.amazonaws.com/" ++
            jsDisplayOpt (getField r.metadata "s3_pdf_key") ++ "#page=" ++
            jsDisplay (jsOrJ (getField r.metadata "page") (Json.num 1))
         else "#source-" ++ toString (i + 1))),
      ("content", jsOrJ (getField r.metadata "snippet") (Json.str "")),
      ("description", Json.str (jsDisplayOpt (getField r.metadata "title") ++ " - Page " ++
        jsDisplayOpt (getField r.metadata "page"))),
      ("source", Json.str "City of Olympia Official Documents"),
      ("relevanceScore", Json.num (1 - r.distance)),
      ("toolType", Json.str "olympia")])

/-- A vector result as serialized into the stored full context. -/
def vectorResultJson (r : VectorResult) : Json :=
  Json.obj [("key", Json.str r.key), ("distance", Json.num r.distance),
    ("metadata", r.metadata)]

/-- The current RAG query endpoint (`POST /api/eco-rag`): validate the query,
check the API key, embed, query the vector index, compress, store the context
(failures swallowed) and answer. Returns the response, the new database state
and the trace of external calls performed. -/
def ecoRagPost (env : RagEnv) (db : Db) (req : RagRequest) :
    HttpResponse × Db × List RagEffect :=
  match req.query with
  | none => (⟨400, ecoRagErrorBody⟩, db, [])
  | some query =>
    if query = "" ∨ (jsTrim query).length = 0 then
      (⟨400, ecoRagErrorBody⟩, db, [])
    else if !env.hasOpenAIKey then
      (⟨500, Json.obj [("error", Json.str "OpenAI API key not configured")]⟩, db, [])
    else
      let topK := req.topK.getD 5
      let effs0 := [RagEffect.embedCall query, RagEffect.vectorQuery topK]
      let results := env.vectorResults
      if results.isEmpty then
        (⟨200, Json.obj
          [("context_id", Json.str (contextIdOf env)),
           ("compressed_summary", Json.str noResultsSummary),
           ("sources", Json.arr []),
           ("query", Json.str query),
           ("processingTimeMs", Json.num (Int.ofNat (env.nowEnd - env.nowStart))),
           ("tokenCount", Json.num 0)]⟩, db, effs0)
      else
        let summary := env.summary
        let tokenCount := env.summaryTokens
        let effs1 := effs0 ++ [RagEffect.compressCall query]
        let sources := results.enum.map (fun p => mkSource p.1 p.2)
        let contextId := contextIdOf env
        let stored :=
          match req.sessionId with
          | some sid =>
            if !(sid = "") then
              (createRagContext env.storeOk db
                ⟨contextId, sid, query,
                 Json.obj [("results", Json.arr (results.map vectorResultJson)),
                           ("rawContext", Json.str (buildContext results))],
                 summary, Json.arr sources, tokenCount⟩,
               effs1 ++ [RagEffect.storeContext contextId sid])
            else (db, effs1)
          | none => (db, effs1)
        (⟨200, Json.obj
          [("context_id", Json.str contextId),
           ("compressed_summary", Json.str summary),
           ("sources", Json.arr sources),
           ("query", Json.str query),
           ("processingTimeMs", Json.num (Int.ofNat (env.nowEnd - env.nowStart))),
           ("tokenCount", Json.num (Int.ofNat tokenCount))]⟩,
         stored.1, stored.2)

/-- One formatted source of the legacy endpoint's response. -/
def mkSourceV1 (r : VectorResult) : Json :=
  Json.obj
    ([("doc_id", jsOrJ (getField r.metadata "doc_id") (Json.str "unknown")),
      ("title", jsOrJ (getField r.metadata "title") (Json.str "Unknown Document")),
      ("page", jsOrJ (getField r.metadata "page") (Json.num 0))] ++
     (match getField r.metadata "s3_pdf_key" with
      | some v => [("s3_pdf_key", v)]
      | none => []) ++
     [("distance", Json.num r.distance)])

/-- The legacy RAG query endpoint (the earlier `POST /api/eco-rag` without
context storage): same validation, then embed, vector query and a full
GPT-4o answer. -/
def ecoRagPostV1 (env : RagEnv) (req : RagRequest) : HttpResponse × List RagEffect :=
  match req.query with
  | none => (⟨400, ecoRagErrorBody⟩, [])
  | some query =>
    if query = "" ∨ (jsTrim query).length = 0 then
      (⟨400, ecoRagErrorBody⟩, [])
    else if !env.hasOpenAIKey then
      (⟨500, Json.obj [("error", Json.str "OpenAI API key not configured")]⟩, [])
    else
      let topK := req.topK.getD 5
      let effs0 := [RagEffect.embedCall query, RagEffect.vectorQuery topK]
      if env.vectorResults.isEmpty then
        (⟨200, Json.obj
          [("answer", Json.str noResultsSummary),
           ("sources", Json.arr []),
           ("query", Json.str query),
           ("processingTimeMs", Json.num (Int.ofNat (env.nowEnd - env.nowStart)))]⟩,
         effs0)
      else
        (⟨200, Json.obj
          [("answer", Json.str env.answer),
           ("sources", Json.arr (env.vectorResults.map mkSourceV1)),
           ("query", Json.str query),
           ("processingTimeMs", Json.num (Int.ofNat (env.nowEnd - env.nowStart)))]⟩,
         effs0 ++ [RagEffect.answerCall query])

/-! ### The olympiaRAGSearch tool (src/lib/tools.ts) -/

/-- The tool's external-world oracle: the endpoint's environment plus whether
the `fetch` itself succeeds. -/
structure ToolEnv where
  ragEnv : RagEnv
  fetchOk : Bool
  fetchErrorMessage : String
  deriving Repr, Inhabited

/-- The preview shown for a stored context when the limit is reached:
the first 500 characters of the compressed summary (`'No preview'` when
empty). -/
def contextPreview (r : RagRow) : String :=
  let p := r.compressedSummary.take 500 ++
    (if 500 < r.compressedSummary.length then "..." else "")
  if p = "" then "No preview" else p

/-- One line of the limit-reached message, listing a stored context's query,
context id and a 200-character preview. -/
def readableLine (i : Nat) (r : RagRow) : String :=
  toString (i + 1) ++ ". Query: \"" ++ r.query ++ "\"\n   Context ID: " ++ r.id ++
    "\n   Preview: " ++ (contextPreview r).take 200 ++ "..."

/-- The limit-reached message returned when a session already has 4 stored
contexts: it lists every existing context id with its query and preview. -/
def blockedMessage (db : Db) (sessionId : String) : String :=
  let readableList := String.intercalate "\n\n"
    ((listRagContextsForSession db sessionId).enum.map (fun p => readableLine p.1 p.2))
  "⛔ **STOP - RAG SEARCH LIMIT REACHED**\n\nThis search was BLOCKED. You have used all 4 RAG searches for this conversation.\n\n**CRITICAL: Do NOT call olympiaRAGSearch again - it will always fail.**\n\nInstead, answer the user using your previous search results below:\n\n---\n\n" ++
  readableList ++
  "\n\n---\n\n**YOUR OPTIONS:**\n1. Answer using the previews above (they contain key facts)\n2. Call `getRAGContext(\"context_id\")` for full details from any previous search\n3. If data is insufficient, tell the user to start a new chat\n\n**NEVER call olympiaRAGSearch again in this conversation.**"

/-- Keep key `k` of `s` when present (an object-literal entry whose
`undefined` value would vanish at serialization). -/
def optField (s : Json) (k : String) : List (String × Json) :=
  match getField s k with
  | some v => [(k, v)]
  | none => []

/-- A compact source entry of the tool's return value. -/
def minSource (s : Json) : Json :=
  Json.obj (optField s "title" ++ optField s "page" ++ optField s "url" ++
    optField s "relevanceScore" ++ optField s "content" ++ optField s "source" ++
    optField s "toolType")

/-- The brief summary included in the tool's return: the compressed summary
truncated to 6000 characters. (A truthy non-string summary would throw in
the source and fall to the catch; it cannot arise from the endpoint model.) -/
def briefSummaryOf (data : Json) : String :=
  match getField data "compressed_summary" with
  | some (Json.str s) =>
      if !(s = "") then s.take 6000 ++ (if 6000 < s.length then "..." else "")
      else "No summary available"
  | _ => "No summary available"

/-- The JSON string the tool returns on a successful search, including the
remaining-searches warning recomputed from the post-insert count. -/
def toolSuccessJson (db2 : Db) (sessionId : Option String) (query : String)
    (data : Json) : String :=
  let sourcesMinimal :=
    match getField data "sources" with
    | some (Json.arr ss) => ss.map minSource
    | _ => []
  let briefSummary := briefSummaryOf data
  let remaining : Int :=
    match sessionId with
    | some sid =>
        if !(sid = "") then 4 - Int.ofNat (countRagContextsForSession db2 sid) else 4
    | none => 4
  let warning :=
    if remaining ≤ 0 then
      "⛔ NO MORE SEARCHES ALLOWED. Use getRAGContext for follow-up queries."
    else if remaining = 1 then "⚠️ LAST SEARCH REMAINING. Make it comprehensive!"
    else toString remaining ++ " searches remaining."
  Json.stringify (Json.obj
    ([("type", Json.str "olympia_planning")] ++
     (match getField data "context_id" with
      | some v => [("context_id", v)]
      | none => []) ++
     [("brief", Json.str briefSummary),
      ("query", Json.str query),
      ("sources", Json.arr sourcesMinimal),
      ("results", Json.arr sourcesMinimal),
      ("resultCount", Json.num (Int.ofNat sourcesMinimal.length)),
      ("searchesRemaining", Json.num remaining),
      ("_warning", Json.str warning),
      ("_note", Json.str ("Full context (up to 8000 tokens) stored. Use getRAGContext(\"" ++
        jsDisplayOpt (getField data "context_id") ++ "\") for complete details if needed.")),
      ("displaySource", Json.str "City of Olympia Official Documents")]))

/-- Source `olympiaRAGSearch.execute`: with a truthy session id already holding 4
contexts the call is blocked before any fetch; otherwise the endpoint runs
(a failed fetch is caught) and the tool formats the result. Returns the new
database state, the tool's string result, and the external calls performed. -/
def olympiaRAGSearch (env : ToolEnv) (db : Db) (sessionId : Option String)
    (query : String) (topK : Nat) : Db × String × List RagEffect :=
  let limited : Bool :=
    match sessionId with
    | some sid => !(sid = "") && decide (4 ≤ countRagContextsForSession db sid)
    | none => false
  if limited then
    (db, blockedMessage db (sessionId.getD ""), [])
  else if !env.fetchOk then
    (db, "❌ Error searching Olympia documents: " ++ env.fetchErrorMessage, [])
  else
    let r := ecoRagPost env.ragEnv db ⟨some query, some topK, sessionId⟩
    let resp := r.1
    let db2 := r.2.1
    let effs := r.2.2
    if 200 ≤ resp.status ∧ resp.status < 300 then
      (db2, toolSuccessJson db2 sessionId query resp.body, effs)
    else
      let errDetail :=
        match getField resp.body "details" with
        | some v =>
            if jsTruthy v then jsDisplay v else jsDisplayOpt (getField resp.body "error")
        | none => jsDisplayOpt (getField resp.body "error")
      (db2, "❌ Error searching Olympia documents: " ++ errDetail, effs)

/-- A sequence of olympiaRAGSearch invocations for one session, executed
sequentially, threading the database state. -/
def runRAGSearches (s : String) : List (ToolEnv × String × Nat) → Db → Db
  | [], db => db
  | (env, q, k) :: rest, db =>
      runRAGSearches s rest (olympiaRAGSearch env db (some s) q k).1

/-- A concrete vector result. -/
def vrW : VectorResult :=
  ⟨"doc1-p3", 0,
    Json.obj [("doc_id", Json.str "doc1"), ("title", Json.str "Climate Plan"),
      ("page", Json.num 3), ("snippet", Json.str "sea level rise"),
      ("s3_pdf_key", Json.str "plans/climate.pdf")]⟩

/-- A concrete endpoint environment with one vector match. -/
def ragEnvW : RagEnv :=
  ⟨true, [vrW], "Compressed facts about sea level rise.", 42, "full answer",
    true, 100, 250, 999, "abc123xyz"⟩

/-- A concrete tool environment over `ragEnvW`. -/
def toolEnvW : ToolEnv := ⟨ragEnvW, true, "network down"⟩

/-- A session that already stored four contexts. -/
def dbFour : Db :=
  ⟨(List.range 4).map (fun i =>
    ⟨"ctx" ++ toString i, "s1", "q" ++ toString i, Json.null, "stored summary",
      Json.arr [], 10⟩)⟩

/-! ### Lemmas about the trimming loop -/

theorem sumTokens_reverse (l : List Message) : sumTokens l.reverse = sumTokens l := by
  simp [sumTokens, List.map_reverse, List.sum_reverse]

theorem takeWhileBudget_bound (b : Nat) :
    ∀ (l : List Message) (c : Nat), c ≤ b → c + sumTokens (takeWhileBudget b l c) ≤ b := by
  intro l
  induction l with
  | nil => intro c h; simpa [takeWhileBudget, sumTokens] using h
  | cons m rest ih =>
    intro c h
    simp only [takeWhileBudget]
    split
    · simpa [sumTokens] using h
    · rename_i hc
      have hc' : c + estimateMessageTokens m ≤ b := by omega
      have hrec := ih (c + estimateMessageTokens m) hc'
      simp only [sumTokens, List.map_cons, List.sum_cons] at hrec ⊢
      omega

theorem takeWhileBudget_eq_take (b : Nat) :
    ∀ (l : List Message) (c : Nat),
      takeWhileBudget b l c = l.take (takeWhileBudget b l c).length := by
  intro l
  induction l with
  | nil => intro c; simp [takeWhileBudget]
  | cons m rest ih =>
    intro c
    simp only [takeWhileBudget]
    split
    · simp
    · simp only [List.length_cons, List.take_succ_cons, List.cons.injEq, true_and]
      exact ih _

theorem takeWhileBudget_length_le (b : Nat) (l : List Message) (c : Nat) :
    (takeWhileBudget b l c).length ≤ l.length := by
  conv_lhs => rw [takeWhileBudget_eq_take b l c]
  simp

theorem takeWhileBudget_max (b : Nat) :
    ∀ (l : List Message) (c j : Nat), j ≤ l.length → c + sumTokens (l.take j) ≤ b →
      j ≤ (takeWhileBudget b l c).length := by
  intro l
  induction l with
  | nil =>
    intro c j hj _
    simp only [List.length_nil, Nat.le_zero] at hj
    simp [takeWhileBudget, hj]
  | cons m rest ih =>
    intro c j hj hsum
    cases j with
    | zero => simp
    | succ j' =>
      simp only [List.take_succ_cons, sumTokens, List.map_cons, List.sum_cons] at hsum
      have hfit : ¬ b < c + estimateMessageTokens m := by omega
      simp only [takeWhileBudget, if_neg hfit, List.length_cons]
      have hrec := ih (c + estimateMessageTokens m) j' (by simpa using hj)
        (by simp only [sumTokens]; omega)
      omega

theorem trimMessages_spec_core (messages : List Message) (b : Nat) (mLast : Message)
    (hlast : messages.getLast? = some mLast) : TrimSpec messages b mLast := by
  have hne : messages ≠ [] := by
    intro h; rw [h] at hlast; simp at hlast
  have hrev : messages.reverse.head? = some mLast := by
    rw [List.head?_reverse]; exact hlast
  obtain ⟨r', hr⟩ : ∃ r', messages.reverse = mLast :: r' := by
    cases h : messages.reverse with
    | nil => rw [h] at hrev; simp at hrev
    | cons a as =>
      rw [h] at hrev; simp at hrev
      exact ⟨as, by rw [hrev]⟩
  have hempty : messages.isEmpty = false := by
    simpa [List.isEmpty_iff] using hne
  constructor
  · -- the most recent message fits: greedy longest suffix
    intro hfit
    have hnotlt : ¬ b < 0 + estimateMessageTokens mLast := by omega
    have htw : takeWhileBudget b messages.reverse 0 =
        mLast :: takeWhileBudget b r' (0 + estimateMessageTokens mLast) := by
      rw [hr]; simp only [takeWhileBudget, if_neg hnotlt]
    set t := (takeWhileBudget b messages.reverse 0).length with ht
    have htle : t ≤ messages.length := by
      have := takeWhileBudget_length_le b messages.reverse 0
      simpa using this
    have htake : takeWhileBudget b messages.reverse 0 = messages.reverse.take t :=
      takeWhileBudget_eq_take b messages.reverse 0
    have hdrop : (takeWhileBudget b messages.reverse 0).reverse =
        messages.drop (messages.length - t) := by
      rw [htake, List.reverse_take, List.reverse_reverse, List.length_reverse]
    have htrimmed_ne : ((takeWhileBudget b messages.reverse 0).reverse).isEmpty = false := by
      rw [htw]; simp
    refine ⟨messages.length - t, ?_, ?_, ?_⟩
    · unfold trimMessages
      rw [if_neg (by simp [hempty])]
      simp only [htrimmed_ne, Bool.false_eq_true, if_false]
      exact hdrop
    · rw [← hdrop, sumTokens_reverse]
      have := takeWhileBudget_bound b messages.reverse 0 (Nat.zero_le b)
      simpa using this
    · intro j hj
      by_contra hle
      push_neg at hle
      have hjlen : j < messages.length := by omega
      have hdropj : messages.drop j = (messages.reverse.take (messages.length - j)).reverse := by
        rw [List.reverse_take, List.reverse_reverse, List.length_reverse]
        congr 1
        omega
      have hsumj : sumTokens (messages.reverse.take (messages.length - j)) ≤ b := by
        rw [hdropj] at hle
        rwa [sumTokens_reverse] at hle
      have hmax := takeWhileBudget_max b messages.reverse 0 (messages.length - j)
        (by simp) (by simpa using hsumj)
      omega
  · -- the most recent message alone exceeds the budget: fallback
    intro hover
    have hlt : b < 0 + estimateMessageTokens mLast := by omega
    have htw : takeWhileBudget b messages.reverse 0 = [] := by
      rw [hr]; simp only [takeWhileBudget, if_pos hlt]
    unfold trimMessages
    rw [if_neg (by simp [hempty]), htw]
    cases hfu : findLastUser messages <;> simp [hfu, hlast]

/-- C1 (amended): whenever the most recent message's own estimated token count
is at most the budget, the history returned by trimMessages has a total
estimated token count at most the budget. (Without that proviso the claim is
false: the fallback deliberately keeps an over-budget message, see
`trimMessages_budget_counterexample`.) -/
theorem trimMessages_le_budget (messages : List Message) (b : Nat) (mLast : Message)
    (hlast : messages.getLast? = some mLast)
    (hfit : estimateMessageTokens mLast ≤ b) :
    sumTokens (trimMessages messages b) ≤ b := by
  obtain ⟨h1, _⟩ := trimMessages_spec_core messages b mLast hlast
  obtain ⟨k, hk, hsum, _⟩ := h1 hfit
  rw [hk]; exact hsum

/-- Witness for `trimMessages_le_budget` at a concrete message and budget. -/
theorem trimMessages_le_budget_witness :
    estimateMessageTokens msgHello ≤ 8000 ∧
    sumTokens (trimMessages [msgHello] 8000) ≤ 8000 :=
  ⟨by decide, trimMessages_le_budget [msgHello] 8000 msgHello rfl (by decide)⟩

/-- C1 counterexample: with budget 0 (the claim quantifies over every budget)
a single user message is returned by the fallback although its estimated
token count exceeds the budget, so the trimmed history exceeds the budget. -/
theorem trimMessages_budget_counterexample :
    trimMessages [msgHello] 0 = [msgHello] ∧
    ¬ sumTokens (trimMessages [msgHello] 0) ≤ 0 :=
  ⟨rfl, by decide⟩

/-- C5: on a non-empty list whose most recent message fits the budget,
trimMessages returns exactly the longest suffix whose summed estimate fits
(kept messages unmodified, in order), and when the most recent message alone
exceeds the budget it returns the last user message, or failing that the last
message. -/
theorem trimMessages_greedy (messages : List Message) (b : Nat) (mLast : Message)
    (hlast : messages.getLast? = some mLast) : TrimSpec messages b mLast :=
  trimMessages_spec_core messages b mLast hlast

/-- Witness for `trimMessages_greedy` at a concrete two-message history. -/
theorem trimMessages_greedy_witness : TrimSpec [msgHello, msgReply] 8000 msgReply :=
  trimMessages_greedy [msgHello, msgReply] 8000 msgReply rfl

/-! ### Lemmas about stripResponseMetadata -/

theorem isRsString_stripJson (v : Json) : isRsString (stripJson v) = isRsString v := by
  cases v <;> rfl

mutual
theorem fullyClean_stripJson : ∀ v : Json, fullyClean (stripJson v) = true
  | Json.null => rfl
  | Json.bool _ => rfl
  | Json.num _ => rfl
  | Json.str _ => rfl
  | Json.arr elems => by
      simp only [stripJson, fullyClean]
      exact fullyCleanElems_stripElems elems
  | Json.obj fields => by
      simp only [stripJson, fullyClean]
      exact fullyCleanFields_stripFields fields
theorem fullyCleanFields_stripFields :
    ∀ fs : List (String × Json), fullyCleanFields (stripFields fs) = true
  | [] => rfl
  | (k, v) :: rest => by
      by_cases h : (bannedKey k || isRsString v) = true
      · simp only [stripFields, if_pos h]
        exact fullyCleanFields_stripFields rest
      · simp only [stripFields, if_neg h]
        simp only [Bool.or_eq_true, not_or, Bool.not_eq_true] at h
        simp only [fullyCleanFields, Bool.and_eq_true, Bool.not_eq_true']
        exact ⟨⟨⟨h.1, by rw [isRsString_stripJson]; exact h.2⟩, fullyClean_stripJson v⟩,
          fullyCleanFields_stripFields rest⟩
theorem fullyCleanElems_stripElems :
    ∀ es : List Json, fullyCleanElems (stripElems es) = true
  | [] => rfl
  | v :: rest => by
      by_cases h : isRsString v = true
      · simp only [stripElems, if_pos h]
        simp only [fullyCleanElems, Bool.and_eq_true, Bool.not_eq_true']
        exact ⟨⟨rfl, rfl⟩, fullyCleanElems_stripElems rest⟩
      · simp only [stripElems, if_neg h]
        simp only [fullyCleanElems, Bool.and_eq_true, Bool.not_eq_true']
        exact ⟨⟨by rw [isRsString_stripJson]; simpa using h, fullyClean_stripJson v⟩,
          fullyCleanElems_stripElems rest⟩
end

mutual
theorem stripJson_eq_self : ∀ v : Json, fullyClean v = true → stripJson v = v
  | Json.null, _ => rfl
  | Json.bool _, _ => rfl
  | Json.num _, _ => rfl
  | Json.str _, _ => rfl
  | Json.arr elems, h => by
      simp only [fullyClean] at h
      simp only [stripJson]
      rw [stripElems_eq_self elems h]
  | Json.obj fields, h => by
      simp only [fullyClean] at h
      simp only [stripJson]
      rw [stripFields_eq_self fields h]
theorem stripFields_eq_self :
    ∀ fs : List (String × Json), fullyCleanFields fs = true → stripFields fs = fs
  | [], _ => rfl
  | (k, v) :: rest, h => by
      simp only [fullyCleanFields, Bool.and_eq_true, Bool.not_eq_true'] at h
      obtain ⟨⟨⟨hb, hr⟩, hv⟩, hrest⟩ := h
      have hcond : (bannedKey k || isRsString v) = false := by rw [hb, hr]; rfl
      simp only [stripFields, hcond, Bool.false_eq_true, if_false]
      rw [stripJson_eq_self v hv, stripFields_eq_self rest hrest]
theorem stripElems_eq_self :
    ∀ es : List Json, fullyCleanElems es = true → stripElems es = es
  | [], _ => rfl
  | v :: rest, h => by
      simp only [fullyCleanElems, Bool.and_eq_true, Bool.not_eq_true'] at h
      obtain ⟨⟨hr, hv⟩, hrest⟩ := h
      simp only [stripElems, hr, Bool.false_eq_true, if_false]
      rw [stripJson_eq_self v hv, stripElems_eq_self rest hrest]
end

theorem fullyClean_stripMetaPart (p : Json) : fullyClean (stripMetaPart p) = true := by
  cases p <;> first
    | rfl
    | exact fullyClean_stripJson _

theorem stripMetaPart_eq_self (p : Json) (hp : fullyClean p = true) : stripMetaPart p = p := by
  cases p <;> first
    | rfl
    | exact stripJson_eq_self _ hp

/-- C8 (amended): after stripResponseMetadata, no object at any nesting depth
retains a banned field name or a field whose string value starts with `rs_`
(indeed every returned part is fully clean, with `rs_` array elements replaced
by `null`); and a parts array that is already fully clean — no banned fields,
no `rs_`-valued fields, and no `rs_` strings as array elements — is returned
unchanged. -/
theorem stripResponseMetadata_spec (parts : List Json) :
    (∀ p ∈ parts, fullyClean (stripMetaPart p) = true) ∧
    ((∀ p ∈ parts, fullyClean p = true) →
      stripResponseMetadataJ (Json.arr parts) = Json.arr parts) := by
  constructor
  · intro p _
    exact fullyClean_stripMetaPart p
  · intro h
    simp only [stripResponseMetadataJ, Json.arr.injEq]
    induction parts with
    | nil => rfl
    | cons p rest ih =>
      simp only [List.map_cons, List.cons.injEq]
      exact ⟨stripMetaPart_eq_self p (h p (by simp)),
        ih (fun q hq => h q (by simp [hq]))⟩

/-- Witness for `stripResponseMetadata_spec`: a part with a banned `response`
field comes out fully clean, and an already-clean parts array is unchanged. -/
theorem stripResponseMetadata_spec_witness :
    fullyClean (stripMetaPart partResp) = true ∧
    stripResponseMetadataJ (Json.arr [partKeep]) = Json.arr [partKeep] :=
  ⟨(stripResponseMetadata_spec [partResp]).1 partResp (by simp),
   (stripResponseMetadata_spec [partKeep]).2
     (by intro p hp; simp only [List.mem_singleton] at hp; rw [hp]; decide)⟩

/-- C8 counterexample: a part with no banned field and no `rs_`-valued field
(`cleanJson` holds, so by the claim every field should be preserved unchanged)
still comes back modified, because the replacer turns the `rs_` string inside
the array into `null`. -/
theorem stripResponseMetadata_counterexample :
    cleanJson partRs = true ∧
    stripResponseMetadataJ (Json.arr [partRs]) =
      Json.arr [Json.obj [("data", Json.arr [Json.null])]] ∧
    Json.arr [partRs] ≠ Json.arr [Json.obj [("data", Json.arr [Json.null])]] :=
  ⟨rfl, rfl, by simp [partRs]⟩

/-! ### Theorems about summarizeOlderMessages (C4) -/

/-- C4 (amended): summarizeOlderMessages returns its input unchanged when the
tool-call count is below 5 OR the list has at most 3 messages; only when the
count is at least 5 AND there are more than 3 messages does it return one
synthetic user message carrying the text digest of the older messages,
followed by the last 3 input messages unchanged and in order. -/
theorem summarizeOlderMessages_spec (now : Nat) (messages : List Message) :
    (countToolCalls messages < 5 ∨ messages.length ≤ 3 →
      summarizeOlderMessages now messages = messages) ∧
    (5 ≤ countToolCalls messages → 3 < messages.length →
      summarizeOlderMessages now messages =
        Message.mk ("summary-" ++ toString now) "user"
          (Json.arr [Json.obj [("type", Json.str "text"),
            ("text", Json.str (buildSummaryText (messages.take (messages.length - 3))))]]) ::
        messages.drop (messages.length - 3)) := by
  constructor
  · intro h
    unfold summarizeOlderMessages
    rw [if_pos h]
  · intro h1 h2
    unfold summarizeOlderMessages
    rw [if_neg (by omega)]
    rw [if_neg (by simp only [List.length_take]; omega)]

/-- Witness for `summarizeOlderMessages_spec` on a four-message history with
five tool calls: the triggered branch produces the digest plus last three. -/
theorem summarizeOlderMessages_spec_witness :
    summarizeOlderMessages 7 wMsgs =
      Message.mk ("summary-" ++ toString 7) "user"
        (Json.arr [Json.obj [("type", Json.str "text"),
          ("text", Json.str (buildSummaryText (wMsgs.take (wMsgs.length - 3))))]]) ::
      wMsgs.drop (wMsgs.length - 3) :=
  (summarizeOlderMessages_spec 7 wMsgs).2 (by decide) (by decide)

/-- C4 counterexample: a single message carrying five tool calls has
tool-call count 5, yet summarizeOlderMessages returns the input unchanged
(one message, no synthetic digest message), because the source also requires
more than 3 messages before summarizing. -/
theorem summarizeOlderMessages_counterexample :
    5 ≤ countToolCalls [mFiveTools] ∧
    summarizeOlderMessages 0 [mFiveTools] = [mFiveTools] ∧
    (summarizeOlderMessages 0 [mFiveTools]).length = 1 :=
  ⟨by decide, rfl, rfl⟩

/-! ### Theorems about the reload branch (C6) -/

/-- C6: with a session id and more than one frontend message, the history the
handler builds is the database messages (filtered and metadata-stripped)
followed by only the processed last frontend message; two requests differing
only in their earlier frontend messages build the same history. -/
theorem buildMessages_ignores_earlier (s : String) (fm1 fm2 : List Message)
    (db : List DbMessage) (hs : s ≠ "")
    (h1 : 1 < fm1.length) (h2 : 1 < fm2.length)
    (hlast : fm1.getLast? = fm2.getLast?) :
    buildMessages (some s) fm1 db =
      (db.map loadMessage) ++
        [processNewMessage (fm1.getLastD ⟨"", "", Json.null⟩)] ∧
    buildMessages (some s) fm1 db = buildMessages (some s) fm2 db := by
  have hb : (!(s = "")) = true := by simp [hs]
  have hc1 : ((!(s = "")) = true ∧ 1 < fm1.length) := ⟨hb, h1⟩
  have hc2 : ((!(s = "")) = true ∧ 1 < fm2.length) := ⟨hb, h2⟩
  constructor
  · unfold buildMessages
    rw [if_pos hc1]
  · unfold buildMessages
    rw [if_pos hc1, if_pos hc2]
    rw [List.getLastD_eq_getLast?, List.getLastD_eq_getLast?, hlast]

/-- Witness for `buildMessages_ignores_earlier`: two two-message requests
sharing their last message build the same history from one database row. -/
theorem buildMessages_ignores_earlier_witness :
    buildMessages (some "sess1") [msgHello, msgReply] [dbRow1] =
      ([dbRow1].map loadMessage) ++
        [processNewMessage ([msgHello, msgReply].getLastD ⟨"", "", Json.null⟩)] ∧
    buildMessages (some "sess1") [msgHello, msgReply] [dbRow1] =
      buildMessages (some "sess1") [msgReply, msgReply] [dbRow1] :=
  buildMessages_ignores_earlier "sess1" [msgHello, msgReply] [msgReply, msgReply]
    [dbRow1] (by decide) (by decide) (by decide) rfl

/-! ### Lemmas about field update and removal -/

theorem lookupField_setField_self :
    ∀ (fs : List (String × Json)) (k : String) (v : Json),
      lookupField (setField fs k v) k = some v
  | [], k, v => by simp [setField, lookupField]
  | (k', v') :: rest, k, v => by
      by_cases h : k' = k
      · simp [setField, h, lookupField]
      · simp only [setField, if_neg h, lookupField, if_neg h]
        exact lookupField_setField_self rest k v

theorem lookupField_setField_ne :
    ∀ (fs : List (String × Json)) (k k2 : String) (v : Json), k2 ≠ k →
      lookupField (setField fs k v) k2 = lookupField fs k2
  | [], k, k2, v, h => by
      have hne : ¬ k = k2 := fun hh => h hh.symm
      simp [setField, lookupField, hne]
  | (k', v') :: rest, k, k2, v, h => by
      have hne : ¬ k = k2 := fun hh => h hh.symm
      by_cases hk : k' = k
      · subst hk
        simp [setField, lookupField, hne]
      · simp only [setField, if_neg hk, lookupField]
        by_cases hk2 : k' = k2
        · simp [hk2]
        · simp only [if_neg hk2]
          exact lookupField_setField_ne rest k k2 v h

theorem lookupField_eraseField_self :
    ∀ (fs : List (String × Json)) (k : String),
      lookupField (eraseField fs k) k = none
  | [], _ => rfl
  | (k', v') :: rest, k => by
      by_cases h : k' = k
      · simp only [eraseField, if_pos h]
        exact lookupField_eraseField_self rest k
      · simp only [eraseField, if_neg h, lookupField, if_neg h]
        exact lookupField_eraseField_self rest k

theorem lookupField_eraseField_ne :
    ∀ (fs : List (String × Json)) (k k2 : String), k2 ≠ k →
      lookupField (eraseField fs k) k2 = lookupField fs k2
  | [], _, _, _ => rfl
  | (k', v') :: rest, k, k2, h => by
      by_cases hk : k' = k
      · subst hk
        have hne : ¬ k' = k2 := fun hh => h hh.symm
        simp only [eraseField, if_pos rfl, lookupField, if_neg hne]
        exact lookupField_eraseField_ne rest k' k2 h
      · simp only [eraseField, if_neg hk, lookupField]
        by_cases hk2 : k' = k2
        · simp [hk2]
        · simp only [if_neg hk2]
          exact lookupField_eraseField_ne rest k k2 h

/-- The map `mapFinishPart` preserves the `type` and `output` fields and keeps a
present `result` present. -/
theorem mapFinishPart_preserves (p : Json) :
    getField (mapFinishPart p) "type" = getField p "type" ∧
    getField (mapFinishPart p) "output" = getField p "output" ∧
    (hasField p "result" = true → hasField (mapFinishPart p) "result" = true) := by
  have hid : mapFinishPart p = p ∨
      (∃ pfields rfields, p = Json.obj pfields ∧
        mapFinishPart p =
          Json.obj (setField pfields "result" (Json.obj (strippedResult rfields)))) := by
    cases htype : getField p "type" with
    | none => left; simp [mapFinishPart, stripImageData, htype]
    | some tv =>
      cases tv with
      | str t =>
          by_cases hgen : t = "tool-generateImage"
          · cases hres : getField p "result" with
            | none => left; simp [mapFinishPart, stripImageData, htype, hgen, hres]
            | some rv =>
              cases rv with
              | obj rfields =>
                  by_cases hdata : truthyOpt (lookupField rfields "imageData") = true
                  · cases p with
                    | obj pfields =>
                        right
                        refine ⟨pfields, rfields, rfl, ?_⟩
                        simp [mapFinishPart, stripImageData, htype, hgen, hres, hdata,
                          setObjField, strippedResult]
                    | null => simp [getField] at htype
                    | bool b => simp [getField] at htype
                    | num n => simp [getField] at htype
                    | str s => simp [getField] at htype
                    | arr es => simp [getField] at htype
                  · left
                    simp [mapFinishPart, stripImageData, htype, hgen, hres, hdata]
              | null => left; simp [mapFinishPart, stripImageData, htype, hgen, hres]
              | bool b => left; simp [mapFinishPart, stripImageData, htype, hgen, hres]
              | num n => left; simp [mapFinishPart, stripImageData, htype, hgen, hres]
              | str s => left; simp [mapFinishPart, stripImageData, htype, hgen, hres]
              | arr es => left; simp [mapFinishPart, stripImageData, htype, hgen, hres]
          · left; simp [mapFinishPart, stripImageData, htype, hgen]
      | null => left; simp [mapFinishPart, stripImageData, htype]
      | bool b => left; simp [mapFinishPart, stripImageData, htype]
      | num n => left; simp [mapFinishPart, stripImageData, htype]
      | arr es => left; simp [mapFinishPart, stripImageData, htype]
      | obj fs => left; simp [mapFinishPart, stripImageData, htype]
  rcases hid with hid | ⟨pfields, rfields, hp, hid⟩
  · rw [hid]; exact ⟨rfl, rfl, fun h => h⟩
  · subst hp
    rw [hid]
    refine ⟨?_, ?_, fun _ => ?_⟩
    · show lookupField (setField pfields "result" _) "type" = _
      rw [lookupField_setField_ne pfields "result" "type" _ (by simp)]
      rfl
    · show lookupField (setField pfields "result" _) "output" = _
      rw [lookupField_setField_ne pfields "result" "output" _ (by simp)]
      rfl
    · simp only [hasField, getField]
      rw [lookupField_setField_self]

/-- A part kept by the non-user onFinish filter is, after the image-data
strip, never an incomplete tool part. -/
theorem keep_not_incomplete (role : String) (p : Json)
    (hrole : role ≠ "user") (hkeep : keepFinishPart role p = true) :
    incompleteToolPart (mapFinishPart p) = false := by
  obtain ⟨hty, hout, hres⟩ := mapFinishPart_preserves p
  unfold keepFinishPart at hkeep
  rw [if_neg hrole] at hkeep
  cases p with
  | obj pfields =>
    cases htype : getField (Json.obj pfields) "type" with
    | none => rw [htype] at hkeep; simp at hkeep
    | some tv =>
      rw [htype] at hkeep
      cases tv with
      | str t =>
          by_cases htext : t = "text"
          · subst htext
            unfold incompleteToolPart isToolPart
            rw [hty, htype]
            rfl
          · simp only [if_neg htext] at hkeep
            by_cases hsw : jsStartsWith t "tool-" = true
            · rw [if_pos hsw] at hkeep
              unfold incompleteToolPart
              rcases Bool.or_eq_true_iff.mp hkeep with ho | hr2
              · have h2 : hasField (mapFinishPart (Json.obj pfields)) "output" = true := by
                  unfold hasField at ho ⊢
                  rw [hout]
                  exact ho
                simp [h2]
              · have h2 : hasField (mapFinishPart (Json.obj pfields)) "result" = true :=
                  hres hr2
                simp [h2]
            · rw [if_neg hsw] at hkeep; simp at hkeep
      | null => simp at hkeep
      | bool b => simp at hkeep
      | num n => simp at hkeep
      | arr es => simp at hkeep
      | obj fs => simp at hkeep
  | null => simp at hkeep
  | bool b => simp at hkeep
  | num n => simp at hkeep
  | str s => simp at hkeep
  | arr es => simp at hkeep

/-! ### Theorems about persistence (C3, C9) -/

/-- C3 (amended): a non-user message saved by the onFinish callback from its
parts array never contains a `tool-` part lacking both a non-null `output`
and a non-null `result`. (The filter deliberately keeps user-message parts
wholesale and does not inspect the legacy `content` fallback, and the
pre-stream save persists the user's parts unfiltered — see the
counterexample.) -/
theorem onFinish_assistant_no_incomplete (freshId : String) (pt index total : Nat)
    (msg : UIMessage) {parts : List Json} (hrole : msg.role ≠ "user")
    (hparts : msg.parts = some (Json.arr parts)) :
    savedMessageClean (messageToSave freshId pt index total msg) = true := by
  unfold messageToSave savedMessageClean contentToSave
  rw [hparts]
  simp only [List.all_eq_true, List.mem_map]
  rintro p ⟨q, hq, rfl⟩
  rw [List.mem_filter] at hq
  simp only [Bool.not_eq_true']
  exact keep_not_incomplete msg.role q hrole hq.2

/-- Witness for `onFinish_assistant_no_incomplete`: an assistant message
mixing a text part, an incomplete tool part and a completed tool part is
saved clean. -/
theorem onFinish_assistant_no_incomplete_witness :
    savedMessageClean (messageToSave "fresh1" 5 1 2 aMsgMixed) = true :=
  onFinish_assistant_no_incomplete "fresh1" 5 1 2 aMsgMixed (by decide) rfl

/-- C3 counterexample: a user message whose only part is a tool part with no
output and no result is persisted as-is by the onFinish save (the filter
keeps user messages completely), and the pre-stream save persists the same
part unfiltered; so the server does persist a tool-call part lacking a
result. -/
theorem onFinish_counterexample :
    incompleteToolPart toolNoResult = true ∧
    onFinishMessagesToSave (fun _ => "fresh2") 0 [uMsgIncomplete] =
      [⟨"00000000-0000-0000-0000-000000000000", "user", Json.arr [toolNoResult], none⟩] ∧
    savedMessageClean
      ⟨"00000000-0000-0000-0000-000000000000", "user", Json.arr [toolNoResult], none⟩ = false ∧
    preStreamUserContent ⟨"m1", "user", Json.arr [toolNoResult]⟩ = Json.arr [toolNoResult] :=
  ⟨rfl, rfl, rfl, rfl⟩

/-- C9: a `tool-generateImage` part whose object result carries truthy
imageData is saved with the base64 `imageData` removed and a `_saved` note
added, every other field of the part and of its result unchanged; and the
generateImage tool's success return is independent of the base64 data and
never carries an `imageData` field (only the `imageId`/`imageUrl` pointer). -/
theorem imageData_strip_spec (pfields rfields : List (String × Json))
    (htype : lookupField pfields "type" = some (Json.str "tool-generateImage"))
    (hres : lookupField pfields "result" = some (Json.obj rfields))
    (hdata : truthyOpt (lookupField rfields "imageData") = true) :
    ImageStripSpec pfields rfields ∧
    (∀ prompt revisedPrompt size quality background title imageId executionTime b1 b2,
      generateImageSuccess prompt revisedPrompt size quality background title
          imageId executionTime b1 =
        generateImageSuccess prompt revisedPrompt size quality background title
          imageId executionTime b2) ∧
    (∀ prompt revisedPrompt size quality background title imageId executionTime b,
      getField (generateImageSuccess prompt revisedPrompt size quality background title
        imageId executionTime b) "imageData" = none) := by
  refine ⟨⟨?_, ?_, ?_, ?_, ?_⟩, ?_, ?_⟩
  · simp [mapFinishPart, stripImageData, getField, htype, hres, hdata, setObjField,
      strippedResult]
  · intro k hk
    exact lookupField_setField_ne pfields "result" k _ hk
  · unfold strippedResult
    rw [lookupField_setField_ne _ "_saved" "imageData" _ (by simp)]
    exact lookupField_eraseField_self rfields "imageData"
  · unfold strippedResult
    rw [lookupField_setField_self]
  · intro k hk1 hk2
    unfold strippedResult
    rw [lookupField_setField_ne _ "_saved" k _ hk2]
    exact lookupField_eraseField_ne rfields "imageData" k hk1
  · intro prompt revisedPrompt size quality background title imageId executionTime b1 b2
    rfl
  · intro prompt revisedPrompt size quality background title imageId executionTime b
    cases imageId <;> simp [generateImageSuccess, getField, lookupField]

/-- Witness for `imageData_strip_spec` at a concrete generateImage part. -/
theorem imageData_strip_spec_witness :
    ImageStripSpec genImagePartFields genImageResultFields ∧
    getField (generateImageSuccess "a tree" "a tall tree" none none none none
      (some "img42") 1200 "aGVsbG8=") "imageData" = none :=
  ⟨(imageData_strip_spec genImagePartFields genImageResultFields rfl rfl (by decide)).1,
   (imageData_strip_spec genImagePartFields genImageResultFields rfl rfl
      (by decide)).2.2 "a tree" "a tall tree" none none none none (some "img42") 1200 "aGVsbG8="⟩

/-! ### Lemmas and theorems about the RAG endpoint and tool (C2, C7, C10) -/

theorem count_createRagContext (ok : Bool) (db : Db) (row : RagRow) (s : String) :
    countRagContextsForSession (createRagContext ok db row) s ≤
      countRagContextsForSession db s + 1 := by
  unfold createRagContext
  split
  · unfold countRagContextsForSession
    rw [List.filter_append, List.length_append]
    have h1 : (List.filter (fun r => decide (r.sessionId = s)) [row]).length ≤ 1 := by
      simp only [List.filter]
      split <;> simp
    omega
  · omega

theorem ecoRagPost_db_cases (env : RagEnv) (db : Db) (req : RagRequest) :
    (ecoRagPost env db req).2.1 = db ∨
    ∃ row, (ecoRagPost env db req).2.1 = createRagContext env.storeOk db row := by
  unfold ecoRagPost
  cases hq : req.query with
  | none => left; rfl
  | some query =>
    by_cases h1 : (query = "" ∨ (jsTrim query).length = 0)
    · left; simp [h1]
    · by_cases h2 : env.hasOpenAIKey = true
      · by_cases h3 : env.vectorResults.isEmpty = true
        · left; simp [h1, h2, h3]
        · cases hs : req.sessionId with
          | none => left; simp [h1, h2, h3, hs]
          | some sid =>
            by_cases hsid : sid = ""
            · left; simp [h1, h2, h3, hs, hsid]
            · right
              refine ⟨⟨contextIdOf env, sid, query,
                Json.obj [("results", Json.arr (env.vectorResults.map vectorResultJson)),
                  ("rawContext", Json.str (buildContext env.vectorResults))],
                env.summary,
                Json.arr (env.vectorResults.enum.map (fun p => mkSource p.1 p.2)),
                env.summaryTokens⟩, ?_⟩
              simp [h1, h2, h3, hs, hsid]
      · left; simp [h1, h2]

theorem count_ecoRagPost (env : RagEnv) (db : Db) (req : RagRequest) (s : String) :
    countRagContextsForSession (ecoRagPost env db req).2.1 s ≤
      countRagContextsForSession db s + 1 := by
  rcases ecoRagPost_db_cases env db req with h | ⟨row, h⟩
  · rw [h]; omega
  · rw [h]; exact count_createRagContext env.storeOk db row s

theorem ecoRagPost_empty_sid (env : RagEnv) (db : Db) (req : RagRequest)
    (hsid : req.sessionId = some "") : (ecoRagPost env db req).2.1 = db := by
  unfold ecoRagPost
  cases hq : req.query with
  | none => rfl
  | some query =>
    by_cases h1 : (query = "" ∨ (jsTrim query).length = 0)
    · simp [h1]
    · by_cases h2 : env.hasOpenAIKey = true
      · by_cases h3 : env.vectorResults.isEmpty = true
        · simp [h1, h2, h3]
        · simp [h1, h2, h3, hsid]
      · simp [h1, h2]

theorem ragSearch_step_cap (env : ToolEnv) (db : Db) (s q : String) (k : Nat)
    (h : countRagContextsForSession db s ≤ 4) :
    countRagContextsForSession (olympiaRAGSearch env db (some s) q k).1 s ≤ 4 := by
  by_cases hlim : (!(s = "") && decide (4 ≤ countRagContextsForSession db s)) = true
  · have hdb : (olympiaRAGSearch env db (some s) q k).1 = db := by
      simp [olympiaRAGSearch, hlim]
    rw [hdb]; exact h
  · have hcases : (olympiaRAGSearch env db (some s) q k).1 = db ∨
        (olympiaRAGSearch env db (some s) q k).1 =
          (ecoRagPost env.ragEnv db ⟨some q, some k, some s⟩).2.1 := by
      unfold olympiaRAGSearch
      simp only [hlim, Bool.false_eq_true, if_false]
      split
      · left; rfl
      · split
        · right; rfl
        · right; rfl
    have hbound : countRagContextsForSession
        (ecoRagPost env.ragEnv db ⟨some q, some k, some s⟩).2.1 s ≤ 4 := by
      by_cases hs : s = ""
      · rw [ecoRagPost_empty_sid env.ragEnv db _ (by rw [hs])]
        exact h
      · have hlt : countRagContextsForSession db s < 4 := by
          rw [Bool.and_eq_true] at hlim
          push_neg at hlim
          have := hlim (by simp [hs])
          simp at this
          omega
        have := count_ecoRagPost env.ragEnv db ⟨some q, some k, some s⟩ s
        omega
    rcases hcases with he | he <;> rw [he]
    · exact h
    · exact hbound

/-- C2 (over the spec-modelled database layer): a sequence of sequential
olympiaRAGSearch invocations for one session never takes that session's
stored RagContext count above 4, and once 4 contexts exist every further
invocation is blocked — it performs no external call at all, stores nothing,
and returns the limit-reached message listing the stored context ids. -/
theorem ragSearch_session_cap :
    (∀ (s : String) (calls : List (ToolEnv × String × Nat)) (db : Db),
      countRagContextsForSession db s ≤ 4 →
      countRagContextsForSession (runRAGSearches s calls db) s ≤ 4) ∧
    (∀ (env : ToolEnv) (db : Db) (s q : String) (k : Nat),
      s ≠ "" → 4 ≤ countRagContextsForSession db s →
      olympiaRAGSearch env db (some s) q k = (db, blockedMessage db s, [])) := by
  constructor
  · intro s calls
    induction calls with
    | nil => intro db h; exact h
    | cons c rest ih =>
      intro db h
      obtain ⟨env, q, k⟩ := c
      exact ih _ (ragSearch_step_cap env db s q k h)
  · intro env db s q k hs h4
    have hlim : (!(s = "") && decide (4 ≤ countRagContextsForSession db s)) = true := by
      simp [hs, h4]
    simp [olympiaRAGSearch, hlim]

/-- Witness for `ragSearch_session_cap`: one search from an empty session
stays within the cap, and a session with four stored contexts is blocked. -/
theorem ragSearch_session_cap_witness :
    countRagContextsForSession (runRAGSearches "s1" [(toolEnvW, "water", 8)] ⟨[]⟩) "s1" ≤ 4 ∧
    olympiaRAGSearch toolEnvW dbFour (some "s1") "water" 8 =
      (dbFour, blockedMessage dbFour "s1", []) :=
  ⟨ragSearch_session_cap.1 "s1" [(toolEnvW, "water", 8)] ⟨[]⟩ (by decide),
   ragSearch_session_cap.2 toolEnvW dbFour "s1" "water" 8 (by decide) (by decide)⟩

/-- C7: when the RAG query reaches the storage step (valid query, API key
present, non-empty results, session id), the endpoint's JSON response is the
same whether the context insert succeeds or throws, and it is a 200: the
storage failure is swallowed, never surfaced. -/
theorem ecoRag_store_failure_swallowed (env : RagEnv) (db : Db) (req : RagRequest)
    (q sid : String) (hq : req.query = some q)
    (hval : ¬(q = "" ∨ (jsTrim q).length = 0))
    (hkey : env.hasOpenAIKey = true)
    (hres : env.vectorResults.isEmpty = false)
    (_hsid : req.sessionId = some sid) :
    (ecoRagPost { env with storeOk := false } db req).1 =
      (ecoRagPost { env with storeOk := true } db req).1 ∧
    ((ecoRagPost { env with storeOk := false } db req).1).status = 200 := by
  constructor <;>
    simp [ecoRagPost, hq, if_neg hval, hkey, hres, contextIdOf]

/-- Witness for `ecoRag_store_failure_swallowed` at a concrete query. -/
theorem ecoRag_store_failure_swallowed_witness :
    (ecoRagPost { ragEnvW with storeOk := false } ⟨[]⟩
        ⟨some "sea level rise", some 8, some "s1"⟩).1 =
      (ecoRagPost { ragEnvW with storeOk := true } ⟨[]⟩
        ⟨some "sea level rise", some 8, some "s1"⟩).1 ∧
    ((ecoRagPost { ragEnvW with storeOk := false } ⟨[]⟩
        ⟨some "sea level rise", some 8, some "s1"⟩).1).status = 200 :=
  ecoRag_store_failure_swallowed ragEnvW ⟨[]⟩ _ "sea level rise" "s1" rfl (by decide)
    rfl rfl rfl

/-- C10: a POST whose body has no query, or whose query is empty or
whitespace-only, gets the 400 JSON error; no embedding, vector-index,
compression or answer call is made and no context is stored — in both the
current and the legacy version of the endpoint. -/
theorem ecoRag_validation (env : RagEnv) (db : Db) (req : RagRequest)
    (h : req.query = none ∨ ∃ q, req.query = some q ∧ (jsTrim q).length = 0) :
    ecoRagPost env db req = (⟨400, ecoRagErrorBody⟩, db, []) ∧
    ecoRagPostV1 env req = (⟨400, ecoRagErrorBody⟩, []) := by
  rcases h with h | ⟨q, hq, ht⟩
  · constructor <;> simp [ecoRagPost, ecoRagPostV1, h]
  · constructor <;> simp [ecoRagPost, ecoRagPostV1, hq, ht]

/-- Witness for `ecoRag_validation` at a whitespace-only query. -/
theorem ecoRag_validation_witness :
    ecoRagPost ragEnvW ⟨[]⟩ ⟨some "   ", some 5, some "s1"⟩ =
      (⟨400, ecoRagErrorBody⟩, ⟨[]⟩, []) ∧
    ecoRagPostV1 ragEnvW ⟨some "   ", some 5, some "s1"⟩ = (⟨400, ecoRagErrorBody⟩, []) :=
  ecoRag_validation ragEnvW ⟨[]⟩ _ (Or.inr ⟨"   ", rfl, by decide⟩)

end EcoAgent
